import Mathlib

/-!
Verification of the Paxos repository (`src/paxos`).

The repository contains two variants of every role:
* the monolithic `src/paxos/paxos.py` (functions `acceptor`, `proposer`,
  `learner`, `parse_cfg`, `get_quorum`), and
* the split variant `src/paxos/roles/{acceptor,proposer,learner}.py` with
  `src/paxos/network.py` (functions `get_quorum`, `parse_cfg`).

Both variants are embedded below.  Python ballot tuples `(n1, n2)` become
`Ballot = Nat × Nat` compared lexicographically (Python tuple comparison);
Python `None` becomes `Option.none`; per-instance `defaultdict` state becomes
a total function `Nat → _` starting from the default record; each socket
handler becomes a pure step function, and the event loop a `List.foldl`.
-/

namespace Paxos

/-- Ballots are pairs `(counter, proposerId)`, as in the Python code. -/
abbrev Ballot := Nat × Nat

/-- Python `a < b` on ballot tuples: lexicographic comparison. -/
def ballotLt (a b : Ballot) : Prop :=
  a.1 < b.1 ∨ (a.1 = b.1 ∧ a.2 < b.2)

instance (a b : Ballot) : Decidable (ballotLt a b) :=
  inferInstanceAs (Decidable (_ ∨ _))

/-- Python `a <= b` on ballot tuples. -/
def ballotLe (a b : Ballot) : Prop :=
  ballotLt a b ∨ a = b

instance (a b : Ballot) : Decidable (ballotLe a b) :=
  inferInstanceAs (Decidable (_ ∨ _))

theorem ballotLt_trans {a b c : Ballot} (h1 : ballotLt a b) (h2 : ballotLt b c) :
    ballotLt a c := by
  obtain ⟨a1, a2⟩ := a; obtain ⟨b1, b2⟩ := b; obtain ⟨c1, c2⟩ := c
  simp only [ballotLt] at *
  omega

theorem ballotLt_irrefl (a : Ballot) : ¬ ballotLt a a := by
  obtain ⟨a1, a2⟩ := a
  simp only [ballotLt]
  omega

/-- Totality of the lexicographic ballot order. -/
theorem ballotLt_or_eq_of_not_lt {a b : Ballot} (h : ¬ ballotLt a b) :
    ballotLt b a ∨ b = a := by
  obtain ⟨a1, a2⟩ := a; obtain ⟨b1, b2⟩ := b
  simp only [ballotLt, Prod.mk.injEq] at *
  omega

theorem ballotLe_refl (a : Ballot) : ballotLe a a := Or.inr rfl

theorem ballotLe_of_le_of_lt {a b c : Ballot} (h1 : ballotLe a b) (h2 : ballotLt b c) :
    ballotLe a c := by
  rcases h1 with h1 | rfl
  · exact Or.inl (ballotLt_trans h1 h2)
  · exact Or.inl h2

/-! ## Proposer Phase-1b value selection

Embedding of the PHASE1B quorum branch shared verbatim by
`src/paxos/paxos.py` lines 256-274 and `src/paxos/roles/proposer.py`
lines 120-135:

```python
valid_promises = [p for p in promises[instance]
                  if p["v_rnd"] is not None and p["v_val"] is not None]
if valid_promises:
    highest_promise = max(valid_promises, key=lambda p: p["v_rnd"])
    c_val = highest_promise["v_val"]
else:
    c_val = pending_values[0]
```
-/

/-- A parsed Phase-1b reply as the proposer stores it in `promises[instance]`:
`{"v_rnd": ..., "v_val": ...}` with `None` as `none`. -/
structure Promise (V : Type) where
  v_rnd : Option Ballot
  v_val : Option V
deriving DecidableEq

/-- The key `lambda p: p["v_rnd"]` used by `max`; on the filtered list
`v_rnd` is always `some`, so the default is never consulted. -/
def vrndKey {V : Type} (p : Promise V) : Ballot := p.v_rnd.getD (0, 0)

/-- Python `max(valid_promises, key=...)`: scan left to right, replacing the
current maximum only when the new key is strictly greater (so the first
maximal element wins, exactly as in CPython). -/
def maxPromise {V : Type} (p : Promise V) (ps : List (Promise V)) : Promise V :=
  ps.foldl (fun acc q => if ballotLt (vrndKey acc) (vrndKey q) then q else acc) p

/-- The value the proposer proposes in Phase 2a once it has a Phase-1b quorum:
the accepted value of the highest-`v_rnd` valid promise if any promise is
valid, otherwise its own pending value. -/
def selectValue {V : Type} (promises : List (Promise V)) (pending : V) : V :=
  match promises.filter (fun p => p.v_rnd.isSome && p.v_val.isSome) with
  | [] => pending
  | p :: ps => (maxPromise p ps).v_val.getD pending

/-- The PHASE1B quorum guard `len(promises[instance]) >= QUORUM_SIZE` followed
by the value selection: `none` when the quorum is not yet reached. -/
def phase1bOutcome {V : Type} (quorumSize : Nat) (promises : List (Promise V))
    (pending : V) : Option V :=
  if quorumSize ≤ promises.length then some (selectValue promises pending) else none

theorem maxPromise_mem {V : Type} (p : Promise V) (ps : List (Promise V)) :
    maxPromise p ps ∈ p :: ps := by
  induction ps generalizing p with
  | nil => simp [maxPromise]
  | cons q qs ih =>
    simp only [maxPromise, List.foldl_cons]
    by_cases h : ballotLt (vrndKey p) (vrndKey q)
    · rw [if_pos h]
      have := ih q
      simp only [List.mem_cons] at this ⊢
      tauto
    · rw [if_neg h]
      have := ih p
      simp only [List.mem_cons] at this ⊢
      tauto

theorem maxPromise_max {V : Type} (p : Promise V) (ps : List (Promise V)) :
    ∀ x ∈ p :: ps, ¬ ballotLt (vrndKey (maxPromise p ps)) (vrndKey x) := by
  induction ps generalizing p with
  | nil =>
    intro x hx
    rcases List.mem_cons.mp hx with hxp | hx
    · rw [hxp]
      simp only [maxPromise, List.foldl_nil]
      exact ballotLt_irrefl _
    · simp at hx
  | cons q qs ih =>
    intro x hx
    simp only [maxPromise, List.foldl_cons]
    by_cases h : ballotLt (vrndKey p) (vrndKey q)
    · rw [if_pos h]
      rcases List.mem_cons.mp hx with hxp | hx
      · -- x = p : the final maximum dominates q, and p < q
        rw [hxp]
        intro hcon
        have hq : ¬ ballotLt (vrndKey (maxPromise q qs)) (vrndKey q) :=
          ih q q (List.mem_cons_self q qs)
        exact hq (ballotLt_trans hcon h)
      · exact ih q x hx
    · rw [if_neg h]
      rcases List.mem_cons.mp hx with hxp | hx
      · rw [hxp]
        exact ih p p (List.mem_cons_self p qs)
      · rcases List.mem_cons.mp hx with hxq | hx
        · -- x = q : from ¬ p < q and maximality over p :: qs
          rw [hxq]
          intro hcon
          have hp : ¬ ballotLt (vrndKey (maxPromise p qs)) (vrndKey p) :=
            ih p p (List.mem_cons_self p qs)
          rcases ballotLt_or_eq_of_not_lt h with hqp | hqp
          · exact hp (ballotLt_trans hcon hqp)
          · rw [hqp] at hcon
            exact hp hcon
        · exact ih p x (List.mem_cons.mpr (Or.inr hx))

/-- **C1.** If the collected Phase-1b replies reach the quorum size and some
reply `p` carries an accepted round `r` and accepted value `v` such that every
other reply's accepted round is strictly below `r`, then the Phase-2a value is
exactly `v`, for every pending candidate value `w` the proposer might hold:
the proposer never substitutes its own candidate. -/
theorem phase1b_adopts_highest_accepted {V : Type} [DecidableEq V]
    (quorumSize : Nat) (promises : List (Promise V)) (p : Promise V)
    (r : Ballot) (v : V)
    (hq : quorumSize ≤ promises.length)
    (hp : p ∈ promises) (hr : p.v_rnd = some r) (hv : p.v_val = some v)
    (hmax : ∀ q ∈ promises, ∀ rq, q.v_rnd = some rq → q = p ∨ ballotLt rq r) :
    ∀ w : V, phase1bOutcome quorumSize promises w = some v := by
  intro w
  unfold phase1bOutcome
  rw [if_pos hq]
  congr 1
  unfold selectValue
  have hpvalid : p ∈ promises.filter (fun p => p.v_rnd.isSome && p.v_val.isSome) := by
    rw [List.mem_filter]
    exact ⟨hp, by simp [hr, hv]⟩
  rcases hval : promises.filter (fun p => p.v_rnd.isSome && p.v_val.isSome) with
    _ | ⟨q, qs⟩
  · rw [hval] at hpvalid
    simp at hpvalid
  · rw [hval] at hpvalid
    rw [hval]
    show (maxPromise q qs).v_val.getD w = v
    have hmem : maxPromise q qs ∈ q :: qs := maxPromise_mem q qs
    have hfilt : maxPromise q qs ∈ promises.filter
        (fun p => p.v_rnd.isSome && p.v_val.isSome) := by
      rw [hval]; exact hmem
    rw [List.mem_filter] at hfilt
    obtain ⟨hmemP, hprops⟩ := hfilt
    rw [Bool.and_eq_true, Option.isSome_iff_exists, Option.isSome_iff_exists] at hprops
    obtain ⟨⟨rm, hrm⟩, ⟨vm, hvm⟩⟩ := hprops
    rcases hmax (maxPromise q qs) hmemP rm hrm with heq | hlt
    · rw [heq, hv]
      rfl
    · exfalso
      have := maxPromise_max q qs p hpvalid
      apply this
      unfold vrndKey
      rw [hrm, hr]
      exact hlt

/-- Witness for C1 at a concrete quorum: three replies, the second carries
the strictly highest accepted round `(3, 1)` with value `7`; the outcome is
`7` even though the pending candidate is `99`. -/
theorem phase1b_adopts_highest_accepted_witness :
    phase1bOutcome 2
      [⟨some (1, 1), some 5⟩, ⟨some (3, 1), some 7⟩, ⟨none, none⟩] 99 = some (7 : Nat) :=
  phase1b_adopts_highest_accepted 2
    [⟨some (1, 1), some 5⟩, ⟨some (3, 1), some 7⟩, ⟨none, none⟩]
    ⟨some (3, 1), some 7⟩ (3, 1) 7
    (by decide) (by decide) rfl rfl
    (by decide) 99

/-! ## Acceptor

Per-instance acceptor record, as created lazily by
`defaultdict(lambda: {"rnd": (0, 0), "v_rnd": (0, 0), "v_val": None})`
in both `src/paxos/roles/acceptor.py` (lines 11-15) and
`src/paxos/paxos.py` (line 117). -/

structure ARecord (V : Type) where
  rnd : Ballot
  v_rnd : Ballot
  v_val : Option V
deriving DecidableEq

/-- The defaultdict default: `rnd = (0,0), v_rnd = (0,0), v_val = None`. -/
def initARecord {V : Type} : ARecord V := ⟨(0, 0), (0, 0), none⟩

/-- A message addressed to one instance's record. -/
inductive AcceptMsg (V : Type) where
  | phase1a (c_rnd : Ballot)
  | phase2a (c_rnd : Ballot) (c_val : V)
deriving DecidableEq

/-- Reply sent by the acceptor, with the fields the Python message
constructors serialize (`create_phase1b_message`, `create_phase2b_message`). -/
inductive AcceptorReply (V : Type) where
  | phase1b (rnd : Ballot) (v_rnd : Option Ballot) (v_val : Option V)
  | phase2b (v_rnd : Ballot) (v_val : Option V)
deriving DecidableEq

/-- `src/paxos/roles/acceptor.py` lines 30-73: the handler for one instance.
PHASE1A: if `c_rnd > rnd`, set `rnd = c_rnd` and reply Phase-1b with
`v_rnd = state["v_rnd"] if state["v_val"] is not None else None`.
PHASE2A: if `c_rnd >= rnd`, set `rnd = c_rnd; v_rnd = c_rnd; v_val = c_val`
and reply Phase-2b.  Otherwise the state is unchanged and nothing is sent. -/
def acceptorStep {V : Type} (s : ARecord V) : AcceptMsg V → ARecord V × Option (AcceptorReply V)
  | .phase1a c =>
    if ballotLt s.rnd c then
      ({ s with rnd := c },
        some (.phase1b c (if s.v_val.isSome then some s.v_rnd else none) s.v_val))
    else (s, none)
  | .phase2a c v =>
    if ballotLe s.rnd c then
      (⟨c, c, some v⟩, some (.phase2b c (some v)))
    else (s, none)

/-- `src/paxos/paxos.py` lines 132-159: the monolithic acceptor's handler.
It differs from the roles variant in two ways: the Phase-1b reply always
carries `v_rnd` (the tuple `(0,0)` is truthy in Python), and the PHASE2A
branch sets only `v_rnd` and `v_val`, leaving `rnd` unchanged. -/
def acceptorStepMono {V : Type} (s : ARecord V) :
    AcceptMsg V → ARecord V × Option (AcceptorReply V)
  | .phase1a c =>
    if ballotLt s.rnd c then
      ({ s with rnd := c }, some (.phase1b c (some s.v_rnd) s.v_val))
    else (s, none)
  | .phase2a c v =>
    if ballotLe s.rnd c then
      ({ s with v_rnd := c, v_val := some v }, some (.phase2b c (some v)))
    else (s, none)

/-- **C2 (amended).** Phase-2a handling, both variants.  The roles acceptor
(`src/paxos/roles/acceptor.py` lines 59-63) sets all three fields
`rnd = b, v_rnd = b, v_val = v` when `b ≥ rnd` and replies with `(b, v)`;
the monolithic acceptor (`src/paxos/paxos.py` lines 151-157) updates only
`v_rnd` and `v_val`, leaving `rnd` unchanged, and sends the same reply.
When `b < rnd` both leave the record unchanged and send nothing. -/
theorem acceptor_phase2a_spec {V : Type} (s : ARecord V) (b : Ballot) (v : V) :
    (ballotLe s.rnd b →
      acceptorStep s (.phase2a b v) = (⟨b, b, some v⟩, some (.phase2b b (some v)))) ∧
    (¬ ballotLe s.rnd b →
      acceptorStep s (.phase2a b v) = (s, none)) ∧
    (ballotLe s.rnd b →
      acceptorStepMono s (.phase2a b v) =
        ({ s with v_rnd := b, v_val := some v }, some (.phase2b b (some v)))) ∧
    (¬ ballotLe s.rnd b →
      acceptorStepMono s (.phase2a b v) = (s, none)) := by
  refine ⟨fun h => ?_, fun h => ?_, fun h => ?_, fun h => ?_⟩ <;>
    simp [acceptorStep, acceptorStepMono, h]

/-- Witness for C2: from the fresh record, ballot `(1, 1)` and value `7`
are accepted by both variants; the roles variant records `rnd = (1, 1)`. -/
theorem acceptor_phase2a_spec_witness :
    ballotLe ((initARecord : ARecord Nat).rnd) (1, 1) ∧
    acceptorStep (initARecord : ARecord Nat) (.phase2a (1, 1) 7) =
      (⟨(1, 1), (1, 1), some 7⟩, some (.phase2b (1, 1) (some 7))) :=
  ⟨by decide, (acceptor_phase2a_spec (initARecord : ARecord Nat) (1, 1) 7).1 (by decide)⟩

/-- Counterexample for C2 as stated: the monolithic acceptor accepts
ballot `(6, 0)` (it is `≥ rnd = (0, 0)`) but leaves `rnd = (0, 0)` instead
of setting `rnd = (6, 0)` as the claim requires. -/
theorem acceptor_phase2a_mono_keeps_rnd :
    ballotLe ((initARecord : ARecord Nat).rnd) (6, 0) ∧
    (acceptorStepMono (initARecord : ARecord Nat) (.phase2a (6, 0) 42)).1.rnd = (0, 0) ∧
    ((0, 0) : Ballot) ≠ (6, 0) := by
  decide

/-! ## The acceptor record invariant (C3) -/

/-- Run the roles acceptor's per-instance handler over a message list,
starting from the lazily created default record. -/
def acceptorRun {V : Type} (msgs : List (AcceptMsg V)) : ARecord V :=
  msgs.foldl (fun s m => (acceptorStep s m).1) initARecord

/-- Run the monolithic acceptor's per-instance handler over a message list. -/
def acceptorRunMono {V : Type} (msgs : List (AcceptMsg V)) : ARecord V :=
  msgs.foldl (fun s m => (acceptorStepMono s m).1) initARecord

/-- The accepted round as the roles acceptor exposes it in Phase-1b replies
(`state["v_rnd"] if state["v_val"] is not None else None`,
`src/paxos/roles/acceptor.py` line 42): `⊥` exactly when no value is held. -/
def exposedVRnd {V : Type} (s : ARecord V) : Option Ballot :=
  if s.v_val.isSome then some s.v_rnd else none

theorem acceptorStep_preserves_le {V : Type} (s : ARecord V) (m : AcceptMsg V)
    (h : ballotLe s.v_rnd s.rnd) :
    ballotLe ((acceptorStep s m).1).v_rnd ((acceptorStep s m).1).rnd := by
  cases m with
  | phase1a c =>
    by_cases hc : ballotLt s.rnd c
    · simp only [acceptorStep, if_pos hc]
      exact ballotLe_of_le_of_lt h hc
    · simp only [acceptorStep, if_neg hc]
      exact h
  | phase2a c v =>
    by_cases hc : ballotLe s.rnd c
    · simp only [acceptorStep, if_pos hc]
      exact ballotLe_refl c
    · simp only [acceptorStep, if_neg hc]
      exact h

/-- **C3 (amended).** For the roles acceptor
(`src/paxos/roles/acceptor.py`), after any sequence of Phase-1a/Phase-2a
messages starting from the lazily created record (whose default round is
`(0, 0)`), the record satisfies `v_rnd ≤ rnd`, and whenever it holds a
value the accepted round it exposes is not `⊥`. -/
theorem acceptor_record_invariant {V : Type} (msgs : List (AcceptMsg V)) :
    ballotLe (acceptorRun msgs).v_rnd (acceptorRun msgs).rnd ∧
    (∀ v : V, (acceptorRun msgs).v_val = some v → (exposedVRnd (acceptorRun msgs)).isSome) ∧
    (initARecord : ARecord V).rnd = (0, 0) := by
  refine ⟨?_, ?_, rfl⟩
  · have : ∀ (s : ARecord V), ballotLe s.v_rnd s.rnd →
        ballotLe (msgs.foldl (fun s m => (acceptorStep s m).1) s).v_rnd
          (msgs.foldl (fun s m => (acceptorStep s m).1) s).rnd := by
      induction msgs with
      | nil => intro s h; exact h
      | cons m ms ih =>
        intro s h
        exact ih _ (acceptorStep_preserves_le s m h)
    exact this initARecord (ballotLe_refl _)
  · intro v hv
    unfold exposedVRnd
    rw [hv]
    rfl

/-- Witness for C3: after a Phase-1a and an accepted Phase-2a the roles
record holds `v_rnd = rnd = (2, 0)` and exposes the accepted round. -/
theorem acceptor_record_invariant_witness :
    ballotLe (acceptorRun [.phase1a (1, 0), .phase2a (2, 0) (5 : Nat)]).v_rnd
      (acceptorRun [.phase1a (1, 0), .phase2a (2, 0) (5 : Nat)]).rnd ∧
    (exposedVRnd (acceptorRun [.phase1a (1, 0), .phase2a (2, 0) (5 : Nat)])).isSome :=
  ⟨(acceptor_record_invariant [.phase1a (1, 0), .phase2a (2, 0) (5 : Nat)]).1,
   (acceptor_record_invariant [.phase1a (1, 0), .phase2a (2, 0) (5 : Nat)]).2.1 5 (by decide)⟩

/-- Counterexample for C3 as stated: the monolithic acceptor
(`src/paxos/paxos.py` lines 145-159) accepts Phase-2a ballot `(5, 0)`
without raising `rnd`, so its record ends with `v_rnd = (5, 0) > rnd = (0, 0)`,
violating `vRnd ≤ rnd`. -/
theorem acceptor_record_invariant_mono_fails :
    ¬ ballotLe (acceptorRunMono [.phase2a (5, 0) (42 : Nat)]).v_rnd
        (acceptorRunMono [.phase2a (5, 0) (42 : Nat)]).rnd := by
  decide

/-! ## Quorum size (C9)

`src/paxos/network.py` lines 17-18 and `src/paxos/paxos.py` lines 110-111:
`return math.ceil((n_acceptors + 1) / 2)`, the natural-number ceiling of
`(n + 1) / 2`. -/

def get_quorum (n_acceptors : Nat) : Nat := (n_acceptors + 1 + 1) / 2

/-- **C9.** For every acceptor count `N ≥ 1`, `get_quorum N = ⌊N/2⌋ + 1`
(a strict majority), and any two subsets of an `N`-element acceptor set,
each of size `get_quorum N`, share at least one acceptor. -/
theorem get_quorum_majority_intersection {α : Type} [DecidableEq α]
    (N : Nat) (hN : 1 ≤ N) :
    get_quorum N = N / 2 + 1 ∧
    ∀ (S A B : Finset α), A ⊆ S → B ⊆ S → S.card = N →
      A.card = get_quorum N → B.card = get_quorum N → (A ∩ B).Nonempty := by
  constructor
  · unfold get_quorum
    omega
  · intro S A B hA hB hS hAc hBc
    rw [← Finset.card_pos]
    have hunion : (A ∪ B).card ≤ N := by
      rw [← hS]
      exact Finset.card_le_card (Finset.union_subset hA hB)
    have hsum : (A ∪ B).card + (A ∩ B).card = A.card + B.card :=
      Finset.card_union_add_card_inter A B
    unfold get_quorum at hAc hBc
    omega

/-- Witness for C9 with `N = 3`: the quorum size is `2 = 3/2 + 1`, and the
two-element quorums `{0, 1}` and `{1, 2}` of the acceptor set `Fin 3`
intersect. -/
theorem get_quorum_majority_intersection_witness :
    get_quorum 3 = 3 / 2 + 1 ∧
    (({0, 1} : Finset (Fin 3)) ∩ ({1, 2} : Finset (Fin 3))).Nonempty :=
  ⟨(get_quorum_majority_intersection (α := Fin 3) 3 (by decide)).1,
   (get_quorum_majority_intersection (α := Fin 3) 3 (by decide)).2
     Finset.univ {0, 1} {1, 2}
     (by decide) (by decide) (by decide) (by decide) (by decide)⟩

/-! ## Configuration parsing (C10)

There are two `parse_cfg` functions.  `src/paxos/paxos.py` lines 86-97
counts the configuration lines whose role starts with `'acceptor'`:

```python
if role.startswith('acceptor'):
    acceptor_count += 1
...
cfg['acceptor_count'] = acceptor_count
```

`src/paxos/network.py` lines 20-29 (the one imported by
`src/paxos/main.py` and hence by every roles-variant process) instead sets
`cfg['acceptor_count'] = 3  #hardcode`, ignoring the file contents.

A configuration line is `(role, host, port)`; the `role.startswith('acceptor')`
string test is modelled by a tagged role type, where `Role.acceptorR n`
stands for a role name beginning with `'acceptor'`. -/

inductive Role where
  | acceptorR (n : Nat)
  | proposerR (n : Nat)
  | learnerR (n : Nat)
  | clientR (n : Nat)
deriving DecidableEq

/-- One line of the configuration file: role, host, port. -/
structure CfgLine where
  role : Role
  host : Nat
  port : Nat
deriving DecidableEq

/-- `role.startswith('acceptor')`. -/
def isAcceptorRole : Role → Bool
  | .acceptorR _ => true
  | _ => false

/-- The `acceptor_count` entry computed by `parse_cfg` in
`src/paxos/paxos.py`: fold over the lines, incrementing on acceptor roles. -/
def parse_cfg_acceptor_count (lines : List CfgLine) : Nat :=
  lines.foldl (fun n l => if isAcceptorRole l.role then n + 1 else n) 0

/-- The `acceptor_count` entry computed by `parse_cfg` in
`src/paxos/network.py`: the hardcoded constant `3`, whatever the file says. -/
def parse_cfg_acceptor_count_network (lines : List CfgLine) : Nat := 3

theorem parse_cfg_foldl_shift (lines : List CfgLine) (n : Nat) :
    lines.foldl (fun n l => if isAcceptorRole l.role then n + 1 else n) n =
      n + (lines.filter (fun l => isAcceptorRole l.role)).length := by
  induction lines generalizing n with
  | nil => simp
  | cons l ls ih =>
    by_cases h : isAcceptorRole l.role
    · simp only [List.foldl_cons, List.filter_cons, h, if_pos, ih]
      simp only [List.length_cons]
      omega
    · simp only [List.foldl_cons, List.filter_cons, h, if_neg, ih]
      simp [h]

/-- **C10 (amended).** `parse_cfg` in `src/paxos/paxos.py` returns an
`acceptor_count` equal to the number of acceptor entries in the
configuration, whereas `parse_cfg` in `src/paxos/network.py` returns the
fixed constant `3` regardless of the configuration. -/
theorem parse_cfg_acceptor_count_spec (lines : List CfgLine) :
    parse_cfg_acceptor_count lines =
      (lines.filter (fun l => isAcceptorRole l.role)).length ∧
    parse_cfg_acceptor_count_network lines = 3 := by
  refine ⟨?_, rfl⟩
  unfold parse_cfg_acceptor_count
  rw [parse_cfg_foldl_shift]
  omega

/-- A five-acceptor configuration (plus a proposer, a learner and a client). -/
def cfgFive : List CfgLine :=
  [⟨.acceptorR 1, 0, 5000⟩, ⟨.acceptorR 2, 0, 5001⟩, ⟨.acceptorR 3, 0, 5002⟩,
   ⟨.acceptorR 4, 0, 5003⟩, ⟨.acceptorR 5, 0, 5004⟩,
   ⟨.proposerR 1, 0, 6000⟩, ⟨.learnerR 1, 0, 7000⟩, ⟨.clientR 1, 0, 8000⟩]

/-- Counterexample for C10 as stated: on a configuration with five acceptor
entries, the `network.py` `parse_cfg` reports `acceptor_count = 3`, not the
size of the acceptor set supplied by the configuration. -/
theorem parse_cfg_network_ignores_config :
    parse_cfg_acceptor_count_network cfgFive = 3 ∧
    (cfgFive.filter (fun l => isAcceptorRole l.role)).length = 5 ∧
    parse_cfg_acceptor_count_network cfgFive ≠
      (cfgFive.filter (fun l => isAcceptorRole l.role)).length := by
  decide

/-! ## Whole-acceptor state and catch-up (C7)

The acceptor processes keep a per-instance `defaultdict` of records plus a
separate `decisions` dict served to learners on a CATCHUP query.  In
`src/paxos/paxos.py` (lines 117-167) every accepted PHASE2A also stores
`decisions[instance] = (c_val, client_id)`; in `src/paxos/roles/acceptor.py`
(lines 7-84) `decisions = {}` is initialized but never written. -/

/-- A message as received by a whole acceptor process: Phase-1a/Phase-2a for
a slot (Phase-2a carries the client id stored in `decisions`), or a CATCHUP
query. -/
inductive AcceptorIn (V : Type) where
  | phase1a (slot : Nat) (c_rnd : Ballot)
  | phase2a (slot : Nat) (c_rnd : Ballot) (c_val : V) (client_id : Nat)
  | catchup
deriving DecidableEq

/-- Whole state of an acceptor process: the lazily filled per-instance map
and the `decisions` dict (instance ↦ `(c_val, client_id)`). -/
structure AcceptorProc (V : Type) where
  states : Nat → ARecord V
  decisions : Nat → Option (V × Nat)

/-- Initial acceptor process state: every instance at the defaultdict
default, `decisions = {}`. -/
def acceptorProcInit {V : Type} : AcceptorProc V :=
  ⟨fun _ => initARecord, fun _ => none⟩

/-- One loop iteration of the monolithic acceptor (`src/paxos/paxos.py`
lines 122-167) restricted to its state change: PHASE1A/PHASE2A update the
slot's record exactly as `acceptorStepMono` does, an accepted PHASE2A also
records `decisions[instance] = (c_val, client_id)`, and CATCHUP sends
`decisions` without touching anything. -/
def acceptorProcStepMono {V : Type} (s : AcceptorProc V) : AcceptorIn V → AcceptorProc V
  | .phase1a slot c =>
    { s with states := fun i =>
        if i = slot then (acceptorStepMono (s.states slot) (.phase1a c)).1 else s.states i }
  | .phase2a slot c v cid =>
    if ballotLe (s.states slot).rnd c then
      { states := fun i =>
          if i = slot then (acceptorStepMono (s.states slot) (.phase2a c v)).1 else s.states i,
        decisions := fun i => if i = slot then some (v, cid) else s.decisions i }
    else s
  | .catchup => s

/-- Same for the roles acceptor (`src/paxos/roles/acceptor.py` lines 20-81):
records are updated by `acceptorStep` (which also raises `rnd` on Phase-2a),
but `decisions` is never written. -/
def acceptorProcStepRoles {V : Type} (s : AcceptorProc V) : AcceptorIn V → AcceptorProc V
  | .phase1a slot c =>
    { s with states := fun i =>
        if i = slot then (acceptorStep (s.states slot) (.phase1a c)).1 else s.states i }
  | .phase2a slot c v _cid =>
    { s with states := fun i =>
        if i = slot then (acceptorStep (s.states slot) (.phase2a c v)).1 else s.states i }
  | .catchup => s

/-- The CATCHUP response body: the `decided` mapping sent to learners. -/
def catchupResponse {V : Type} (s : AcceptorProc V) : Nat → Option (V × Nat) :=
  s.decisions

def acceptorProcRunMono {V : Type} (msgs : List (AcceptorIn V)) : AcceptorProc V :=
  msgs.foldl acceptorProcStepMono acceptorProcInit

def acceptorProcRunRoles {V : Type} (msgs : List (AcceptorIn V)) : AcceptorProc V :=
  msgs.foldl acceptorProcStepRoles acceptorProcInit

theorem acceptorProcStepMono_decisions_states {V : Type} (s : AcceptorProc V)
    (m : AcceptorIn V)
    (h : ∀ i, (s.decisions i).map Prod.fst = (s.states i).v_val) :
    ∀ i, ((acceptorProcStepMono s m).decisions i).map Prod.fst =
      ((acceptorProcStepMono s m).states i).v_val := by
  intro i
  cases m with
  | phase1a slot c =>
    simp only [acceptorProcStepMono]
    by_cases hi : i = slot
    · subst hi
      rw [if_pos rfl]
      by_cases hc : ballotLt (s.states i).rnd c
      · simp only [acceptorStepMono, if_pos hc]
        exact h i
      · simp only [acceptorStepMono, if_neg hc]
        exact h i
    · rw [if_neg hi]
      exact h i
  | phase2a slot c v cid =>
    simp only [acceptorProcStepMono]
    by_cases hc : ballotLe (s.states slot).rnd c
    · rw [if_pos hc]
      by_cases hi : i = slot
      · subst hi
        simp only [if_pos rfl, acceptorStepMono, if_pos hc]
        rfl
      · simp only [if_neg hi]
        exact h i
    · rw [if_neg hc]
      exact h i
  | catchup => exact h i

/-- **C7 (amended).** For the monolithic acceptor, after any sequence of
messages the CATCHUP response maps an instance to an accepted value exactly
when the acceptor's record for that instance holds that accepted value
(`decisions` mirrors the accepted instance-to-value map), and handling a
CATCHUP query leaves the whole acceptor state unchanged. -/
theorem catchup_serves_accepted_map {V : Type} (msgs : List (AcceptorIn V)) (i : Nat) :
    ((catchupResponse (acceptorProcRunMono msgs)) i).map Prod.fst =
      ((acceptorProcRunMono msgs).states i).v_val ∧
    acceptorProcStepMono (acceptorProcRunMono msgs) .catchup = acceptorProcRunMono msgs := by
  refine ⟨?_, rfl⟩
  have : ∀ (s : AcceptorProc V),
      (∀ j, (s.decisions j).map Prod.fst = (s.states j).v_val) →
      ∀ j, ((msgs.foldl acceptorProcStepMono s).decisions j).map Prod.fst =
        ((msgs.foldl acceptorProcStepMono s).states j).v_val := by
    induction msgs with
    | nil => intro s h; exact h
    | cons m ms ih =>
      intro s h
      exact ih _ (acceptorProcStepMono_decisions_states s m h)
  exact this acceptorProcInit (fun _ => rfl) i

/-- Counterexample for C7 as stated: the roles acceptor accepts value `42`
for instance `0` (its record holds it), yet its CATCHUP response is empty —
`decisions` is never populated in `src/paxos/roles/acceptor.py`. -/
theorem catchup_roles_response_empty :
    ((acceptorProcRunRoles [.phase2a 0 (1, 1) (42 : Nat) 7]).states 0).v_val = some 42 ∧
    catchupResponse (acceptorProcRunRoles [.phase2a 0 (1, 1) (42 : Nat) 7]) 0 = none := by
  decide

/-! ## Learner, roles variant (C5, C8)

`src/paxos/roles/learner.py` lines 30-77.  State: `decisions`
(instance ↦ first recorded value, an insertion-ordered dict modelled as an
association list), `decision_counts` (write-only counters), `next_to_print`
and the printed output.  The `logger.error` calls on conflicting decisions
are modelled as an `errors` log. -/

structure LearnerState (V : Type) where
  decisions : List (Nat × V)
  counts : Nat → Nat
  errors : List (Nat × V × V)
  nextToPrint : Nat
  output : List (Nat × V)

def learnerInit {V : Type} : LearnerState V :=
  ⟨[], fun _ => 0, [], 0, []⟩

/-- Recording one `(instance, value)` pair, the shared body of the DECISION
and CATCHUP branches: if the instance is absent, store the value (count 1);
if it is present with a different value, log a consistency error; in either
present case bump the counter.  The stored value is never replaced. -/
def learnerRecord {V : Type} [DecidableEq V] (s : LearnerState V) (i : Nat) (v : V) :
    LearnerState V :=
  match s.decisions.lookup i with
  | none =>
    { s with decisions := s.decisions ++ [(i, v)],
             counts := fun j => if j = i then 1 else s.counts j }
  | some w =>
    if w = v then
      { s with counts := fun j => if j = i then s.counts j + 1 else s.counts j }
    else
      { s with errors := s.errors ++ [(i, w, v)],
               counts := fun j => if j = i then s.counts j + 1 else s.counts j }

/-- The `while next_to_print in decisions:` loop, printing and advancing the
cursor while the log is contiguous.  The fuel `s.decisions.length + 1`
dominates the number of iterations: keys are distinct, each successful
iteration consumes one, so the lookup fails before the fuel runs out. -/
def learnerDrainAux {V : Type} : Nat → LearnerState V → LearnerState V
  | 0, s => s
  | fuel + 1, s =>
    match s.decisions.lookup s.nextToPrint with
    | some v =>
      learnerDrainAux fuel
        { s with output := s.output ++ [(s.nextToPrint, v)],
                 nextToPrint := s.nextToPrint + 1 }
    | none => s

def learnerDrain {V : Type} (s : LearnerState V) : LearnerState V :=
  learnerDrainAux (s.decisions.length + 1) s

/-- A message received by the learner: a Decision for one slot, or a
CATCHUP response carrying a decided map (iterated in the received order). -/
inductive LearnerIn (V : Type) where
  | decision (slot : Nat) (v : V)
  | catchup (decided : List (Nat × V))

/-- One loop iteration of the roles learner: record, then drain the
contiguous prefix. -/
def learnerStep {V : Type} [DecidableEq V] (s : LearnerState V) : LearnerIn V → LearnerState V
  | .decision i v => learnerDrain (learnerRecord s i v)
  | .catchup ds => learnerDrain (ds.foldl (fun t p => learnerRecord t p.1 p.2) s)

def learnerRun {V : Type} [DecidableEq V] (msgs : List (LearnerIn V)) : LearnerState V :=
  msgs.foldl learnerStep learnerInit

/-- The delivery invariant: the printed instances are exactly
`0, 1, …, nextToPrint - 1` in that order. -/
def LearnerOrdered {V : Type} (s : LearnerState V) : Prop :=
  s.output.map Prod.fst = List.range s.output.length ∧
  s.nextToPrint = s.output.length

theorem learnerRecord_ordered {V : Type} [DecidableEq V]
    (s : LearnerState V) (i : Nat) (v : V) (h : LearnerOrdered s) :
    LearnerOrdered (learnerRecord s i v) := by
  cases hl : s.decisions.lookup i with
  | none =>
    simp only [learnerRecord, hl]
    exact h
  | some w =>
    by_cases hw : w = v
    · simp only [learnerRecord, hl, if_pos hw]
      exact h
    · simp only [learnerRecord, hl, if_neg hw]
      exact h

theorem learnerDrainAux_ordered {V : Type} (fuel : Nat)
    (s : LearnerState V) (h : LearnerOrdered s) :
    LearnerOrdered (learnerDrainAux fuel s) := by
  induction fuel generalizing s with
  | zero => exact h
  | succ fuel ih =>
    cases hl : s.decisions.lookup s.nextToPrint with
    | none =>
      simp only [learnerDrainAux, hl]
      exact h
    | some v =>
      simp only [learnerDrainAux, hl]
      apply ih
      obtain ⟨h1, h2⟩ := h
      constructor
      · simp only [List.map_append, List.length_append, List.map_cons, List.map_nil,
          List.length_cons, List.length_nil]
        rw [h1, h2, List.range_succ]
      · simp only [List.length_append, List.length_cons, List.length_nil]
        omega

theorem learnerStep_ordered {V : Type} [DecidableEq V]
    (s : LearnerState V) (m : LearnerIn V) (h : LearnerOrdered s) :
    LearnerOrdered (learnerStep s m) := by
  cases m with
  | decision i v =>
    exact learnerDrainAux_ordered _ _ (learnerRecord_ordered s i v h)
  | catchup ds =>
    apply learnerDrainAux_ordered
    have : ∀ (t : LearnerState V), LearnerOrdered t →
        LearnerOrdered (ds.foldl (fun t p => learnerRecord t p.1 p.2) t) := by
      induction ds with
      | nil => intro t ht; exact ht
      | cons p ps ih =>
        intro t ht
        exact ih _ (learnerRecord_ordered t p.1 p.2 ht)
    exact this s h

/-- **C5 (amended).** The roles learner delivers instances strictly in
increasing order with no gaps, whatever the order, duplication or mixture of
Decision and Catchup messages: after any message sequence the printed
instance sequence is exactly `0, 1, …, n-1` and the cursor sits at `n`.
(So instance `i` is printed only after every `j < i`, later instances stay
buffered in `decisions`, and the cursor advances only while contiguous.) -/
theorem learner_ordered_delivery {V : Type} [DecidableEq V]
    (msgs : List (LearnerIn V)) :
    (learnerRun msgs).output.map Prod.fst = List.range ((learnerRun msgs).output.length) ∧
    (learnerRun msgs).nextToPrint = (learnerRun msgs).output.length := by
  have : ∀ (s : LearnerState V), LearnerOrdered s →
      LearnerOrdered (msgs.foldl learnerStep s) := by
    induction msgs with
    | nil => intro s h; exact h
    | cons m ms ih =>
      intro s h
      exact ih _ (learnerStep_ordered s m h)
  exact this learnerInit ⟨rfl, rfl⟩

/-- **C8 (amended).** The roles learner records a Decision for an instance
not yet recorded; a Decision for an instance already recorded with a
different value leaves the recorded map unchanged (the stored value stays
the first one recorded — never overwritten) and appends a consistency error
to the error log (`logger.error`), without halting the learner. -/
theorem learner_never_overwrites {V : Type} [DecidableEq V]
    (s : LearnerState V) (i : Nat) (v : V) :
    (s.decisions.lookup i = none →
      (learnerRecord s i v).decisions = s.decisions ++ [(i, v)]) ∧
    (∀ w, s.decisions.lookup i = some w →
      (learnerRecord s i v).decisions = s.decisions ∧
      (w ≠ v → (learnerRecord s i v).errors = s.errors ++ [(i, w, v)])) := by
  constructor
  · intro h
    simp only [learnerRecord, h]
  · intro w h
    by_cases hw : w = v
    · simp [learnerRecord, h, hw]
    · simp [learnerRecord, h, hw]

/-- Witness for C8: a learner that already recorded `1` for instance `0`
receives a conflicting Decision `2`; the stored map is unchanged and the
conflict is logged. -/
theorem learner_never_overwrites_witness :
    (learnerRecord (learnerInit : LearnerState Nat) 0 1).decisions.lookup 0 = some 1 ∧
    (learnerRecord (learnerRecord (learnerInit : LearnerState Nat) 0 1) 0 2).decisions =
      [(0, 1)] ∧
    (learnerRecord (learnerRecord (learnerInit : LearnerState Nat) 0 1) 0 2).errors =
      [(0, 1, 2)] := by
  refine ⟨by decide, ?_, ?_⟩
  · have h := (learner_never_overwrites (learnerRecord (learnerInit : LearnerState Nat) 0 1)
      0 2).2 1 (by decide)
    rw [h.1]
    decide
  · have h := (learner_never_overwrites (learnerRecord (learnerInit : LearnerState Nat) 0 1)
      0 2).2 1 (by decide)
    rw [h.2 (by decide)]
    decide

/-! ## Learner, monolithic variant (`src/paxos/paxos.py` lines 350-401)

The monolithic learner keeps `decisions : slot ↦ (value ↦ count)` (modelled
as an insertion-ordered association list keyed by `(slot, value)`) and a
`confirmed_decisions` set; on a DECISION it bumps the count and, if the slot
is unconfirmed, prints the first value whose count reached the quorum size.
It has no `next_to_deliver` cursor and no conflicting-value check.  Only the
DECISION branch is modelled; the counterexamples below use it alone. -/

structure LearnerMono (V : Type) where
  counts : List ((Nat × V) × Nat)
  confirmed : List Nat
  output : List (Nat × V)
deriving DecidableEq

/-- `decisions[instance][str(value_tuple)] = ... + 1`, keeping dict order. -/
def bumpValCount {V : Type} [DecidableEq V] :
    List ((Nat × V) × Nat) → Nat × V → List ((Nat × V) × Nat)
  | [], k => [(k, 1)]
  | (k', c) :: rest, k =>
    if k' = k then (k', c + 1) :: rest else (k', c) :: bumpValCount rest k

/-- The DECISION branch of the monolithic learner. -/
def learnerMonoDecision {V : Type} [DecidableEq V] (quorumSize : Nat)
    (s : LearnerMono V) (i : Nat) (v : V) : LearnerMono V :=
  let cs := bumpValCount s.counts (i, v)
  if i ∈ s.confirmed then { s with counts := cs }
  else
    match (cs.filter (fun p => p.1.1 == i)).find? (fun p => Nat.ble quorumSize p.2) with
    | some p =>
      { counts := cs, confirmed := s.confirmed ++ [i], output := s.output ++ [(i, p.1.2)] }
    | none => { s with counts := cs }

def learnerMonoRun {V : Type} [DecidableEq V] (quorumSize : Nat)
    (msgs : List (Nat × V)) : LearnerMono V :=
  msgs.foldl (fun s p => learnerMonoDecision quorumSize s p.1 p.2) ⟨[], [], []⟩

/-- Counterexample for C5 as stated: with quorum size 2, the monolithic
learner that receives two Decisions for instance `1` (and none for `0`)
prints instance `1` immediately — it delivers with a gap, before instance
`0`, because it has no ordering cursor. -/
theorem learner_mono_delivers_with_gap :
    (learnerMonoRun 2 [(1, (42 : Nat)), (1, 42)]).output.map Prod.fst = [1] ∧
    0 ∉ (learnerMonoRun 2 [(1, (42 : Nat)), (1, 42)]).output.map Prod.fst := by
  decide

/-- Counterexample for C8 as stated: the monolithic learner first records
value `1` for instance `0`, then receives the conflicting value `2` twice;
it silently confirms and prints `2` — no error is surfaced and the
delivered value is not the first one recorded. -/
theorem learner_mono_confirms_conflicting_value :
    (learnerMonoRun 2 [(0, (1 : Nat)), (0, 2), (0, 2)]).output = [(0, 2)] := by
  decide

/-! ## Proposer reply handling (C4, C6)

A reduced proposer state for the instance currently being driven: the
current ballot `c_rnd`, the accumulated `promises[instance]` and
`phase2b_msgs[instance]` lists, the pending client values, and the log of
Phase-1a ballots multicast by `start_phase1`. -/

structure ProposerS (V : Type) where
  c_rnd : Ballot
  promises : List (Promise V)
  p2bMsgs : List V
  pending : List V
  sent1a : List Ballot
deriving DecidableEq

/-- `start_phase1` (`src/paxos/roles/proposer.py` lines 40-50,
`src/paxos/paxos.py` lines 206-216): only acts when `pending_values` is
nonempty; multicasts Phase-1a with the current ballot and clears both
reply lists for the instance. -/
def startPhase1 {V : Type} (s : ProposerS V) : ProposerS V :=
  match s.pending with
  | [] => s
  | _ :: _ => { s with sent1a := s.sent1a ++ [s.c_rnd], promises := [], p2bMsgs := [] }

/-- `value_counts[v] = value_counts.get(v, 0) + 1`, keeping dict order. -/
def bumpValue {V : Type} [DecidableEq V] : List (V × Nat) → V → List (V × Nat)
  | [], v => [(v, 1)]
  | (w, c) :: rest, v =>
    if w = v then (w, c + 1) :: rest else (w, c) :: bumpValue rest v

/-- The `value_counts` dict built from `phase2b_msgs[instance]`. -/
def valueCounts {V : Type} [DecidableEq V] (msgs : List V) : List (V × Nat) :=
  msgs.foldl bumpValue []

/-- `majority_count = max(value_counts.values())` (`0` on the empty dict,
which the guard `len(msgs) >= QUORUM_SIZE` keeps unreachable). -/
def maxCount {V : Type} (cs : List (V × Nat)) : Nat :=
  cs.foldl (fun m p => max m p.2) 0

/-- Python `max` over a nonempty collection of values. -/
def maxValue {V : Type} [LinearOrder V] : List V → Option V
  | [] => none
  | x :: xs => some (xs.foldl max x)

/-- A Phase-1b message as parsed by the proposer (`v_rnd` is `None` when
`v_rnd_1` is `None`). -/
structure Phase1bIn (V : Type) where
  rnd : Ballot
  v_rnd : Option Ballot
  v_val : Option V
deriving DecidableEq

/-- `handle_phase2b` in `src/paxos/roles/proposer.py` lines 52-84, for the
instance in `current_instances`: there is no preemption check — the message
is processed only when `msg_v_rnd == c_rnd`, appended to
`phase2b_msgs[instance]` (duplicates included), and once
`len(...) >= QUORUM_SIZE` (and the phase timer `check_liveness` allows) a
value whose count reaches the quorum size is broadcast as the Decision.
The post-decision bookkeeping (removing the instance from
`current_instances`, popping `pending_values`) concerns the next instance
and is outside this per-instance state. -/
def rolesHandleP2b {V : Type} [DecidableEq V] [LinearOrder V] (quorumSize : Nat)
    (live : Bool) (s : ProposerS V) (msg_v_rnd : Ballot) (value : V) :
    ProposerS V × Option V :=
  if msg_v_rnd = s.c_rnd then
    let s' := { s with p2bMsgs := s.p2bMsgs ++ [value] }
    if quorumSize ≤ s'.p2bMsgs.length then
      if live then
        let cs := valueCounts s'.p2bMsgs
        let mc := maxCount cs
        if quorumSize ≤ mc then
          (s', maxValue ((cs.filter (fun p => p.2 == mc)).map Prod.fst))
        else (s', none)
      else (s', none)
    else (s', none)
  else (s, none)

/-- The PHASE2B branch of the monolithic proposer (`src/paxos/paxos.py`
lines 276-322): unlike the roles variant it first checks for preemption —
on `msg_v_rnd > c_rnd` it picks the ballot `(msg_v_rnd[0] + 1, id)` and
restarts Phase 1 — and otherwise counts exactly as `rolesHandleP2b`. -/
def monoHandleP2b {V : Type} [DecidableEq V] [LinearOrder V] (pid quorumSize : Nat)
    (live : Bool) (s : ProposerS V) (msg_v_rnd : Ballot) (value : V) :
    ProposerS V × Option V :=
  if ballotLt s.c_rnd msg_v_rnd then
    (startPhase1 { s with c_rnd := (msg_v_rnd.1 + 1, pid) }, none)
  else if msg_v_rnd = s.c_rnd then
    let s' := { s with p2bMsgs := s.p2bMsgs ++ [value] }
    if quorumSize ≤ s'.p2bMsgs.length then
      if live then
        let cs := valueCounts s'.p2bMsgs
        let mc := maxCount cs
        if quorumSize ≤ mc then
          (s', maxValue ((cs.filter (fun p => p.2 == mc)).map Prod.fst))
        else (s', none)
      else (s', none)
    else (s', none)
  else (s, none)

/-- The PHASE1B branch of the monolithic proposer (`src/paxos/paxos.py`
lines 230-274): on `msg_rnd > c_rnd` preempt with ballot
`(msg_rnd[0] + 1, id)` and restart Phase 1; on `msg_rnd == c_rnd` append the
promise and, at quorum (with the timer allowing), send Phase-2a carrying
the selected value.  (With `pending_values` empty the quorum branch raises
`IndexError`, caught by the outer handler, leaving the appended state.) -/
def monoHandleP1b {V : Type} [DecidableEq V] (pid quorumSize : Nat) (live : Bool)
    (s : ProposerS V) (m : Phase1bIn V) : ProposerS V × Option (Ballot × V) :=
  if ballotLt s.c_rnd m.rnd then
    (startPhase1 { s with c_rnd := (m.rnd.1 + 1, pid) }, none)
  else if m.rnd = s.c_rnd then
    let s' := { s with promises := s.promises ++ [⟨m.v_rnd, m.v_val⟩] }
    if quorumSize ≤ s'.promises.length then
      if live then
        match s'.pending with
        | [] => (s', none)
        | w :: _ => (s', some (s'.c_rnd, selectValue s'.promises w))
      else (s', none)
    else (s', none)
  else (s, none)

/-- The PHASE1B branch of the roles proposer (`src/paxos/roles/proposer.py`
lines 99-135): identical to the monolithic one except that the preemption
ballot is `(msg_rnd[0] + num_proposers, id)`. -/
def rolesHandleP1b {V : Type} [DecidableEq V] (numProposers pid quorumSize : Nat)
    (live : Bool) (s : ProposerS V) (m : Phase1bIn V) :
    ProposerS V × Option (Ballot × V) :=
  if ballotLt s.c_rnd m.rnd then
    (startPhase1 { s with c_rnd := (m.rnd.1 + numProposers, pid) }, none)
  else if m.rnd = s.c_rnd then
    let s' := { s with promises := s.promises ++ [⟨m.v_rnd, m.v_val⟩] }
    if quorumSize ≤ s'.promises.length then
      if live then
        match s'.pending with
        | [] => (s', none)
        | w :: _ => (s', some (s'.c_rnd, selectValue s'.promises w))
      else (s', none)
    else (s', none)
  else (s, none)

/-- **C4 (code bug).** The proposer counts raw Phase-2b arrivals: with
quorum size 2 (three acceptors), a single acceptor's Phase-2b reply for the
current ballot delivered twice first yields no decision, then — on the
duplicate delivery of the very same message — reaches the quorum count and
broadcasts a Decision.  Re-delivering an already-processed reply changes
which value is decided, and the duplicate is counted as an additional
quorum member. -/
theorem dup_phase2b_forges_quorum :
    (rolesHandleP2b 2 true (⟨(1, 1), [], [], [9], []⟩ : ProposerS Nat) (1, 1) 7).2 =
      none ∧
    (rolesHandleP2b 2 true
      (rolesHandleP2b 2 true (⟨(1, 1), [], [], [9], []⟩ : ProposerS Nat) (1, 1) 7).1
      (1, 1) 7).2 = some 7 := by
  decide

/-- **C6 (amended).** Preemption.  For the monolithic proposer, a Phase-1b
or Phase-2b reply for the current instance carrying a ballot strictly
greater than `c_rnd` makes it adopt the ballot `(observed.1 + 1, id)` —
strictly greater than the observed ballot — discard all collected replies
and re-send Phase-1a.  The roles proposer does the same on Phase-1b with
ballot `(observed.1 + num_proposers, id)`, strictly greater whenever
`num_proposers ≥ 1`; its Phase-2b handler performs no preemption (see the
counterexample). -/
theorem proposer_preemption (numProposers pid quorumSize : Nat) (live : Bool)
    {V : Type} [DecidableEq V] [LinearOrder V]
    (s : ProposerS V) (m : Phase1bIn V) (mv : Ballot) (value : V)
    (hpend : s.pending ≠ [])
    (h1 : ballotLt s.c_rnd m.rnd) (h2 : ballotLt s.c_rnd mv)
    (hnp : 1 ≤ numProposers) :
    ((monoHandleP1b pid quorumSize live s m).1 =
      ⟨(m.rnd.1 + 1, pid), [], [], s.pending, s.sent1a ++ [(m.rnd.1 + 1, pid)]⟩ ∧
      ballotLt m.rnd (m.rnd.1 + 1, pid)) ∧
    ((monoHandleP2b pid quorumSize live s mv value).1 =
      ⟨(mv.1 + 1, pid), [], [], s.pending, s.sent1a ++ [(mv.1 + 1, pid)]⟩ ∧
      ballotLt mv (mv.1 + 1, pid)) ∧
    ((rolesHandleP1b numProposers pid quorumSize live s m).1 =
      ⟨(m.rnd.1 + numProposers, pid), [], [], s.pending,
        s.sent1a ++ [(m.rnd.1 + numProposers, pid)]⟩ ∧
      ballotLt m.rnd (m.rnd.1 + numProposers, pid)) := by
  rcases hp : s.pending with _ | ⟨w, ws⟩
  · exact absurd hp hpend
  · refine ⟨⟨?_, ?_⟩, ⟨?_, ?_⟩, ⟨?_, ?_⟩⟩
    · simp only [monoHandleP1b, if_pos h1, startPhase1, hp]
    · exact Or.inl (by omega)
    · simp only [monoHandleP2b, if_pos h2, startPhase1, hp]
    · exact Or.inl (by omega)
    · simp only [rolesHandleP1b, if_pos h1, startPhase1, hp]
    · exact Or.inl (by omega)

/-- Witness for C6: a proposer at ballot `(1, 1)` with one collected promise
and one collected Phase-2b value is preempted by ballot `(5, 2)`. -/
theorem proposer_preemption_witness :
    (monoHandleP1b 1 2 true
        (⟨(1, 1), [⟨none, none⟩], [5], [9], []⟩ : ProposerS Nat)
        ⟨(5, 2), none, none⟩).1 =
      ⟨(6, 1), [], [], [9], [(6, 1)]⟩ :=
  ((proposer_preemption 1 1 2 true
      (⟨(1, 1), [⟨none, none⟩], [5], [9], []⟩ : ProposerS Nat)
      ⟨(5, 2), none, none⟩ (5, 2) 9
      (by decide) (by decide) (by decide) (by decide)).1).1

/-- Counterexample for C6 as stated: the roles proposer's Phase-2b handler
(`handle_phase2b`, `src/paxos/roles/proposer.py` lines 52-57) simply
ignores a reply whose ballot `(5, 2)` is strictly greater than its own
`(1, 1)`: the state is returned unchanged — no restart, no new ballot, the
collected replies are kept. -/
theorem roles_phase2b_no_preemption :
    rolesHandleP2b 2 true (⟨(1, 1), [⟨none, none⟩], [5], [9], []⟩ : ProposerS Nat)
      (5, 2) 9 =
    ((⟨(1, 1), [⟨none, none⟩], [5], [9], []⟩ : ProposerS Nat), none) := by
  decide

end Paxos
